import Mathlib

/-!
# httpdupgo: an HTTP traffic duplicator

A shallow embedding of `httpdupgo.go` and of the parts of the Go standard
library it calls (`strings.Split`, `net/textproto` header canonicalisation,
`net/url`, `net/http`), followed by theorems about the embedding.

Go strings are byte sequences.  A Go string is represented by the list of its
bytes, each byte being the character with that code point, so an ASCII
literal is the list of its characters.
-/

namespace Httpdupgo

/-- A Go string: the list of its bytes, a byte being the character with that code point. -/
abbrev GoString := List Char

/-! ## `strings.Split` and the mirror list flag -/

/-- The function `strings.Split(s, ",")`: the pieces of `s` between commas, in order.
A string without a comma (also the empty string) has exactly one piece. -/
def splitComma : GoString → List GoString
  | [] => [[]]
  | c :: cs =>
    if c = ',' then [] :: splitComma cs
    else
      match splitComma cs with
      | [] => [[c]]
      | p :: ps => (c :: p) :: ps

/-- The function `strings.Join(xs, ", ")` for an arbitrary separator. -/
def joinWith (sep : GoString) : List GoString → GoString
  | [] => []
  | [x] => x
  | x :: y :: ys => x ++ sep ++ joinWith sep (y :: ys)

/-- The type `remotes`: the list of mirror addresses. -/
abbrev remotes := List GoString

/-- The method `(*remotes).Set`: appends every piece of `strings.Split(value, ",")`
to the list, one `append` per loop iteration, and returns a nil error
(`none`). -/
def remotes.Set (rs : remotes) (value : GoString) : remotes × Option GoString :=
  ((splitComma value).foldl (fun acc r => acc ++ [r]) rs, none)

/-! ## `http.Header` -/

/-- The type `http.Header` (`map[string][]string`), as the list of its entries; the
order of the list is the order in which one `range` loop visits the map. -/
abbrev Header := List (GoString × List GoString)

/-- Map indexing `h[k]`: the values stored under `k`, the nil slice when `k` is absent. -/
def Header.get : Header → GoString → List GoString
  | [], _ => []
  | (k', vs) :: rest, k => if k' = k then vs else Header.get rest k

/-- The names present in the map. -/
def Header.keys (h : Header) : List GoString := h.map Prod.fst

/-- The statement `h[k] = append(h[k], v)`. -/
def Header.appendAt : Header → GoString → GoString → Header
  | [], k, v => [(k, [v])]
  | (k', vs) :: rest, k, v =>
    if k' = k then (k', vs ++ [v]) :: rest else (k', vs) :: Header.appendAt rest k v

/-- The table `isTokenTable` of `net/textproto`: the bytes allowed in a header name. -/
def validHeaderFieldByte (c : Char) : Bool :=
  c.isAlphanum || "!#$%&'*+-.^_`|~".toList.contains c

/-- The canonicalisation loop of `textproto.canonicalMIMEHeaderKey`: the first
letter and every letter after a hyphen is upper-cased, every other letter is
lower-cased. -/
def canonLoop : Bool → GoString → GoString
  | _, [] => []
  | upper, c :: cs =>
    let c' :=
      if upper && c.isLower then Char.ofNat (c.toNat - 32)
      else if !upper && c.isUpper then Char.ofNat (c.toNat + 32)
      else c
    c' :: canonLoop (c' == '-') cs

/-- The function `textproto.CanonicalMIMEHeaderKey`: a name holding a byte that is not a
token byte is returned unchanged, any other name is canonicalised. -/
def CanonicalMIMEHeaderKey (s : GoString) : GoString :=
  if s.all validHeaderFieldByte then canonLoop true s else s

/-- The method `http.Header.Add`: appends `value` under the canonical form of `key`. -/
def Header.Add (h : Header) (key value : GoString) : Header :=
  Header.appendAt h (CanonicalMIMEHeaderKey key) value

/-- The method `http.Header.Set`: replaces the values under the canonical form of `key`. -/
def Header.Set (h : Header) (key value : GoString) : Header :=
  let k := CanonicalMIMEHeaderKey key
  if h.any (fun e => e.1 = k) then h.map (fun e => if e.1 = k then (e.1, [value]) else e)
  else h ++ [(k, [value])]

/-- The method `http.Header.Del`: removes the canonical form of `key`. -/
def Header.Del (h : Header) (key : GoString) : Header :=
  h.filter (fun e => e.1 ≠ CanonicalMIMEHeaderKey key)

/-- A header map as `net/http` builds it from the wire (the inbound request that the
server hands to the handler, the response that the transport returns): a map (no name
twice), every name in canonical form (header names are case-insensitive and `net/http`
keeps the canonical spelling), every name with at least one value. -/
def Header.WellFormed (h : Header) : Prop :=
  h.keys.Nodup ∧ ∀ e ∈ h, CanonicalMIMEHeaderKey e.1 = e.1 ∧ e.2 ≠ []

instance (h : Header) : Decidable (Header.WellFormed h) := by
  unfold Header.WellFormed; infer_instance

/-- The function `copyHeaders`: for every entry of `from` and every value of the
entry, `to.Add(header, value)`. -/
def copyHeaders (src dst : Header) : Header :=
  src.foldl (fun acc e => e.2.foldl (fun acc2 v => Header.Add acc2 e.1 v) acc) dst

/-! ## `net/url` -/

/-- Errors are carried as their message. -/
abbrev Error := String

/-- The three ways a Go call ends: it returns a value with a nil error, it returns a
non-nil error, or it panics. -/
inductive Result (α : Type) where
  | ok (a : α)
  | error (e : Error)
  | panic (msg : String)
  deriving DecidableEq, Repr

/-- The function `strings.Cut(s, sep)` for a one-byte separator: the text before the
first `sep`, the text after it, and whether `sep` occurs. -/
def cut (sep : Char) : GoString → GoString × GoString × Bool
  | [] => ([], [], false)
  | c :: cs =>
    if c = sep then ([], cs, true)
    else ((c :: (cut sep cs).1), (cut sep cs).2.1, (cut sep cs).2.2)

/-- Splits at the last occurrence of `sep` (`strings.LastIndex`): the text before it
and the text after it, `none` when `sep` does not occur. -/
def cutLast (sep : Char) (s : GoString) : Option (GoString × GoString) :=
  match cut sep s.reverse with
  | (a, b, true) => some (b.reverse, a.reverse)
  | _ => none

/-- The function `stringContainsCTLByte`. -/
def stringContainsCTLByte (s : GoString) : Bool :=
  s.any (fun c => c.toNat < 32 || c.toNat == 127)

/-- The loop of `getScheme` from byte `i > 0` on; `acc` holds the bytes read so far,
last first. -/
def getSchemeLoop (raw : GoString) : GoString → GoString → Result (GoString × GoString)
  | _, [] => .ok ([], raw)
  | acc, c :: cs =>
    if c.isAlpha || c.isDigit || c = '+' || c = '-' || c = '.' then getSchemeLoop raw (c :: acc) cs
    else if c = ':' then .ok (acc.reverse, cs)
    else .ok ([], raw)

/-- The function `getScheme`: splits a leading `scheme:` off. -/
def getScheme (raw : GoString) : Result (GoString × GoString) :=
  match raw with
  | [] => .ok ([], raw)
  | c :: cs =>
    if c.isAlpha then getSchemeLoop raw [c] cs
    else if c.isDigit || c = '+' || c = '-' || c = '.' then .ok ([], raw)
    else if c = ':' then .error "missing protocol scheme"
    else .ok ([], raw)

/-- The escaping modes of `net/url`. -/
inductive encoding
  | encodePath | encodePathSegment | encodeHost | encodeZone
  | encodeUserPassword | encodeQueryComponent | encodeFragment
  deriving DecidableEq, Repr

open encoding

/-- The function `shouldEscape`. -/
def shouldEscape (c : Char) (mode : encoding) : Bool :=
  if c.isAlphanum then false
  else if (mode = encodeHost || mode = encodeZone) && "!$&'()*+,;=:[]<>\"".toList.contains c then false
  else if "-_.~".toList.contains c then false
  else if "$&+,/:;=?@".toList.contains c then
    match mode with
    | encodePath => c == '?'
    | encodePathSegment => c == '/' || c == ';' || c == ',' || c == '?'
    | encodeUserPassword => c == '@' || c == '/' || c == '?' || c == ':'
    | encodeQueryComponent => true
    | encodeFragment => false
    | _ => true
  else if mode = encodeFragment && "!()*".toList.contains c then false
  else true

/-- The digit `"0123456789ABCDEF"[n]`. -/
def upperhex (n : Nat) : Char :=
  if n < 10 then Char.ofNat (48 + n) else Char.ofNat (55 + n)

/-- The function `ishex`. -/
def ishex (c : Char) : Bool :=
  c.isDigit || ('a' ≤ c && c ≤ 'f') || ('A' ≤ c && c ≤ 'F')

/-- The function `unhex`. -/
def unhex (c : Char) : Nat :=
  if c.isDigit then c.toNat - 48
  else if 'a' ≤ c && c ≤ 'f' then c.toNat - 97 + 10
  else if 'A' ≤ c && c ≤ 'F' then c.toNat - 65 + 10
  else 0

/-- The function `escape`: every byte that `shouldEscape` selects becomes `%XX` (a space
becomes `+` in a query component). -/
def escape (mode : encoding) : GoString → GoString
  | [] => []
  | c :: cs =>
    if shouldEscape c mode then
      if c = ' ' && mode = encodeQueryComponent then '+' :: escape mode cs
      else '%' :: upperhex (c.toNat / 16) :: upperhex (c.toNat % 16) :: escape mode cs
    else c :: escape mode cs

/-- The function `unescape`: decodes `%XX`, with the checks each mode adds. -/
def unescape (mode : encoding) : GoString → Result GoString
  | [] => .ok []
  | c :: rest =>
    if c = '%' then
      match rest with
      | a :: b :: rest2 =>
        if !(ishex a && ishex b) then .error "invalid URL escape"
        else if mode = encodeHost && unhex a < 8 && !(a = '2' && b = '5') then
          .error "invalid URL escape"
        else if mode = encodeZone && !(a = '2' && b = '5') && unhex a * 16 + unhex b ≠ 32
            && shouldEscape (Char.ofNat (unhex a * 16 + unhex b)) encodeHost then
          .error "invalid URL escape"
        else
          match unescape mode rest2 with
          | .ok r => .ok (Char.ofNat (unhex a * 16 + unhex b) :: r)
          | other => other
      | _ => .error "invalid URL escape"
    else if (mode = encodeHost || mode = encodeZone) && c.toNat < 128
        && shouldEscape c encodeHost then
      .error "invalid character in host name"
    else
      match unescape mode rest with
      | .ok r => .ok ((if mode = encodeQueryComponent && c = '+' then ' ' else c) :: r)
      | other => other

/-- The function `validEncoded`. -/
def validEncoded (s : GoString) (mode : encoding) : Bool :=
  s.all (fun c => "!$&'()*+,;=:@[]%".toList.contains c || !shouldEscape c mode)

/-- The function `validOptionalPort`: empty, or a colon followed by digits only. -/
def validOptionalPort : GoString → Bool
  | [] => true
  | c :: cs => c == ':' && cs.all Char.isDigit

/-- The type `url.Userinfo`. -/
structure Userinfo where
  username : GoString
  password : GoString
  passwordSet : Bool
  deriving DecidableEq, Repr

/-- The type `url.URL`. -/
structure URL where
  Scheme : GoString := []
  Opaque : GoString := []
  User : Option Userinfo := none
  Host : GoString := []
  Path : GoString := []
  RawPath : GoString := []
  OmitHost : Bool := false
  ForceQuery : Bool := false
  RawQuery : GoString := []
  Fragment : GoString := []
  RawFragment : GoString := []
  deriving DecidableEq, Repr

/-- The function `validUserinfo`. -/
def validUserinfo (s : GoString) : Bool :=
  s.all (fun c => c.isAlphanum || "-._:~!$&'()*+,;=%@".toList.contains c)

/-- The method `(*Userinfo).String`. -/
def Userinfo.String (u : Userinfo) : GoString :=
  escape encodeUserPassword u.username ++
    (if u.passwordSet then ':' :: escape encodeUserPassword u.password else [])

/-- The text before the first `%25` and the text from it on (`strings.Index(s, "%25")`). -/
def cutZone : GoString → Option (GoString × GoString)
  | [] => none
  | c :: cs =>
    if (c :: cs).take 3 = ['%', '2', '5'] then some ([], c :: cs)
    else (cutZone cs).map (fun r => (c :: r.1, r.2))

/-- The function `parseIPv4Fields` of `net/netip`, from the state `val`, `digLen`, `pos`:
whether the text is four decimal octets, each at most 255 and without leading zero,
separated by dots.  `first` says that the byte is the first one, `prevDot` that the byte
before was a dot. -/
def parseIPv4Loop : GoString → Nat → Nat → Nat → Bool → Bool → Bool
  | [], _, _, pos, _, _ => 3 ≤ pos
  | c :: cs, val, digLen, pos, first, prevDot =>
    if c.isDigit then
      if digLen = 1 && val = 0 then false
      else if val * 10 + (c.toNat - 48) > 255 then false
      else parseIPv4Loop cs (val * 10 + (c.toNat - 48)) (digLen + 1) pos false false
    else if c = '.' then
      if first || cs = [] || prevDot then false
      else if pos = 3 then false
      else parseIPv4Loop cs 0 0 (pos + 1) false true
    else false

/-- Whether `parseIPv4Fields` of `net/netip` accepts the text. -/
def parseIPv4Fields (s : GoString) : Bool :=
  parseIPv4Loop s 0 0 0 true false

/-- The end of `parseIPv6` of `net/netip`: the whole text must be used, and the address
must be complete, with an ellipsis exactly when fields are missing. -/
def parseIPv6Finish (i : Nat) (ellipsis : Bool) (s : GoString) : Bool :=
  if s ≠ [] then false else if i < 16 then ellipsis else !ellipsis

/-- The loop of `parseIPv6` of `net/netip`: hexadecimal fields of at most four digits
separated by colons, at most one `::`, possibly an embedded IPv4 address at the end.
`i` counts the bytes of the address filled so far; the first argument bounds the number
of rounds (a round fills two bytes, and there are sixteen). -/
def parseIPv6Loop : Nat → Nat → Bool → GoString → Bool
  | 0, _, _, _ => false
  | fuel + 1, i, ellipsis, s =>
    if 16 ≤ i then parseIPv6Finish i ellipsis s
    else if (s.takeWhile ishex).length > 4 then false
    else if s.takeWhile ishex = [] then false
    else if (s.dropWhile ishex).head? = some '.' then
      if !ellipsis && i ≠ 12 then false
      else if i + 4 > 16 then false
      else if !parseIPv4Fields s then false
      else parseIPv6Finish (i + 4) ellipsis []
    else
      match s.dropWhile ishex with
      | [] => parseIPv6Finish (i + 2) ellipsis []
      | c :: rest1 =>
        if c ≠ ':' then false
        else
          match rest1 with
          | [] => false
          | c2 :: rest2 =>
            if c2 = ':' then
              if ellipsis then false
              else if rest2 = [] then parseIPv6Finish (i + 2) true []
              else parseIPv6Loop fuel (i + 2) true rest2
            else parseIPv6Loop fuel (i + 2) ellipsis rest1

/-- Whether `parseIPv6` of `net/netip` accepts the text: an IPv6 address, possibly followed
by `%` and a non-empty zone. -/
def parseIPv6 (s : GoString) : Bool :=
  if (cut '%' s).2.2 && (cut '%' s).2.1 = [] then false
  else if (cut '%' s).1.take 2 = [':', ':'] then
    if (cut '%' s).1.drop 2 = [] then true
    else parseIPv6Loop 9 0 true ((cut '%' s).1.drop 2)
  else parseIPv6Loop 9 0 false (cut '%' s).1

/-- Whether `netip.ParseAddr` accepts the text as an IPv6 address: the first of `.`, `:`
and `%` in the text decides between IPv4 and IPv6. -/
def isIPv6Addr (s : GoString) : Bool :=
  s.find? (fun c => c = '.' || c = ':' || c = '%') = some ':' && parseIPv6 s

/-- The function `parseHost`: `host[:port]`.  A host with a bracket is an IP literal:
the text between the last `[` and the last `]` must be an IPv6 address (a zone, after
`%25`, is decoded with the rules for zones) and what follows must be a port.  Any other
host is split at its first colon, and what follows must be a port. -/
def parseHost (host : GoString) : Result GoString :=
  match cutLast '[' host with
  | some (_, afterOpen) =>
    match cutLast ']' host with
    | none => .error "missing ']' in host"
    | some (_, colonPort) =>
      if !validOptionalPort colonPort then .error "invalid port after host"
      else
        match unescape encodeHost colonPort with
        | .error e => .error e
        | .panic m => .panic m
        | .ok port =>
          match (match cutZone (afterOpen.take (afterOpen.length - (colonPort.length + 1))) with
            | some (h1, zone) =>
              match unescape encodeHost h1, unescape encodeZone zone with
              | .ok a, .ok b => Result.ok (a ++ b)
              | .ok _, other => other
              | other, _ => other
            | none =>
              unescape encodeHost
                (afterOpen.take (afterOpen.length - (colonPort.length + 1)))) with
          | .error e => .error e
          | .panic m => .panic m
          | .ok name =>
            if parseIPv4Fields name then .error "invalid IP-literal"
            else if !isIPv6Addr name then .error "invalid host"
            else .ok ('[' :: name ++ ']' :: port)
  | none =>
    if (cut ':' host).2.2 && !validOptionalPort (':' :: (cut ':' host).2.1) then
      .error "invalid port after host"
    else unescape encodeHost host

/-- The function `parseAuthority`: `[userinfo@]host`. -/
def parseAuthority (authority : GoString) : Result (Option Userinfo × GoString) :=
  match cutLast '@' authority with
  | none =>
    match parseHost authority with
    | .ok host => .ok (none, host)
    | .error e => .error e
    | .panic m => .panic m
  | some (userinfo, hostPart) =>
    match parseHost hostPart with
    | .error e => .error e
    | .panic m => .panic m
    | .ok host =>
      if !validUserinfo userinfo then .error "net/url: invalid userinfo"
      else if !userinfo.contains ':' then
        match unescape encodeUserPassword userinfo with
        | .ok u => .ok (some ⟨u, [], false⟩, host)
        | .error e => .error e
        | .panic m => .panic m
      else
        match unescape encodeUserPassword (cut ':' userinfo).1,
            unescape encodeUserPassword (cut ':' userinfo).2.1 with
        | .ok u, .ok pw => .ok (some ⟨u, pw, true⟩, host)
        | .ok _, .error e => .error e
        | .ok _, .panic m => .panic m
        | .error e, _ => .error e
        | .panic m, _ => .panic m

/-- The method `(*URL).setPath`. -/
def URL.setPath (u : URL) (p : GoString) : Result URL :=
  match unescape encodePath p with
  | .ok path =>
    .ok { u with Path := path, RawPath := if p = escape encodePath path then [] else p }
  | .error e => .error e
  | .panic m => .panic m

/-- The method `(*URL).setFragment`. -/
def URL.setFragment (u : URL) (f : GoString) : Result URL :=
  match unescape encodeFragment f with
  | .ok frag =>
    .ok { u with Fragment := frag,
                 RawFragment := if f = escape encodeFragment frag then [] else f }
  | .error e => .error e
  | .panic m => .panic m

/-- The second half of `parse`: what follows once the scheme and the query are split
off; `url` holds the scheme and the query, `rest` is the text between them. -/
def parseRest (viaRequest : Bool) (url : URL) (rest : GoString) : Result URL :=
  if rest.head? ≠ some '/' && url.Scheme ≠ [] then .ok { url with Opaque := rest }
  else if rest.head? ≠ some '/' && viaRequest then .error "invalid URI for request"
  else if rest.head? ≠ some '/' && (cut '/' rest).1.contains ':' then
    .error "first path segment in URL cannot contain colon"
  else if (url.Scheme ≠ [] || (!viaRequest && rest.take 3 ≠ ['/', '/', '/']))
      && rest.take 2 = ['/', '/'] then
    match parseAuthority ((rest.drop 2).takeWhile (fun c => c ≠ '/')) with
    | .error e => .error e
    | .panic m => .panic m
    | .ok (user, host) =>
      URL.setPath { url with User := user, Host := host }
        ((rest.drop 2).dropWhile (fun c => c ≠ '/'))
  else if url.Scheme ≠ [] && rest.head? = some '/' then
    URL.setPath { url with OmitHost := true } rest
  else URL.setPath url rest

/-- The function `parse` of `net/url` (the URL without its fragment). -/
def parse (rawURL : GoString) (viaRequest : Bool) : Result URL :=
  if stringContainsCTLByte rawURL then .error "net/url: invalid control character in URL"
  else if rawURL = [] && viaRequest then .error "empty url"
  else if rawURL = ['*'] then .ok { Path := ['*'] }
  else
    match getScheme rawURL with
    | .error e => .error e
    | .panic m => .panic m
    | .ok (scheme, rest) =>
      if rest.getLast? = some '?' && rest.count '?' = 1 then
        parseRest viaRequest { Scheme := scheme.map Char.toLower, ForceQuery := true }
          rest.dropLast
      else
        parseRest viaRequest
          { Scheme := scheme.map Char.toLower, RawQuery := (cut '?' rest).2.1 }
          (cut '?' rest).1

/-- The function `url.Parse`. -/
def Parse (rawURL : GoString) : Result URL :=
  match parse (cut '#' rawURL).1 false with
  | .error e => .error e
  | .panic m => .panic m
  | .ok url =>
    if (cut '#' rawURL).2.1 = [] then .ok url else URL.setFragment url (cut '#' rawURL).2.1

/-- The method `(*URL).EscapedPath`. -/
def URL.EscapedPath (u : URL) : GoString :=
  if u.RawPath ≠ [] && validEncoded u.RawPath encodePath
      && unescape encodePath u.RawPath = .ok u.Path then u.RawPath
  else if u.Path = ['*'] then ['*']
  else escape encodePath u.Path

/-- The method `(*URL).EscapedFragment`. -/
def URL.EscapedFragment (u : URL) : GoString :=
  if u.RawFragment ≠ [] && validEncoded u.RawFragment encodeFragment
      && unescape encodeFragment u.RawFragment = .ok u.Fragment then u.RawFragment
  else escape encodeFragment u.Fragment

/-- The method `(*URL).String`.  When the host is omitted, a path that starts with two
slashes is written with its first slash escaped, so that it is not read as an authority. -/
def URL.String (u : URL) : GoString :=
  let buf0 : GoString := if u.Scheme ≠ [] then u.Scheme ++ [':'] else []
  let buf1 : GoString :=
    if u.Opaque ≠ [] then buf0 ++ u.Opaque
    else
      let auth : GoString :=
        if u.Scheme ≠ [] || u.Host ≠ [] || u.User.isSome then
          if u.OmitHost && u.Host = [] && u.User.isNone then []
          else
            (if u.Host ≠ [] || u.Path ≠ [] || u.User.isSome then ['/', '/'] else []) ++
            (match u.User with
              | some ui => ui.String ++ ['@']
              | none => []) ++
            (if u.Host ≠ [] then escape encodeHost u.Host else [])
        else []
      let omitted : Bool :=
        (u.Scheme ≠ [] || u.Host ≠ [] || u.User.isSome) &&
          (u.OmitHost && u.Host = [] && u.User.isNone)
      let path :=
        if omitted && u.EscapedPath.take 2 = ['/', '/'] then
          ['%', '2', 'F'] ++ u.EscapedPath.drop 1
        else u.EscapedPath
      let b2 := buf0 ++ auth
      let b3 := if path ≠ [] && path.head? ≠ some '/' && u.Host ≠ [] then b2 ++ ['/'] else b2
      let b4 := if b3 = [] && (cut '/' path).1.contains ':' then b3 ++ ['.', '/'] else b3
      b4 ++ path
  let buf2 := if u.ForceQuery || u.RawQuery ≠ [] then buf1 ++ ['?'] ++ u.RawQuery else buf1
  if u.Fragment ≠ [] then buf2 ++ ['#'] ++ u.EscapedFragment else buf2

/-! ## `net/http` -/

/-- The type `url.Values` (`map[string][]string`); a request field of this type is
`none` when the map is nil. -/
abbrev Values := List (GoString × List GoString)

/-- The type `http.Request`, with the fields the program reads or writes.  `Body` is
the body stream, given by the bytes it yields (`none`: a nil body). -/
structure Request where
  Method : GoString
  URL : URL
  Header : Header := []
  Body : Option GoString := none
  Host : GoString := []
  Form : Option Values := none
  Close : Bool := false
  deriving DecidableEq, Repr

/-- The type `http.Response`, with the fields the program reads. -/
structure Response where
  StatusCode : Nat
  Header : Header
  Body : GoString
  deriving DecidableEq, Repr

/-- The function `validMethod` of `net/http`: a non-empty token. -/
def validMethod (method : GoString) : Bool :=
  method ≠ [] && method.all validHeaderFieldByte

/-- The function `strings.LastIndex(s, sep)` for a one-byte separator. -/
def lastIndex (sep : Char) (s : GoString) : Int :=
  match cutLast sep s with
  | some (before, _) => before.length
  | none => -1

/-- The function `removeEmptyPort` of `net/http`: drops a trailing colon of a host that
has a port part. -/
def removeEmptyPort (host : GoString) : GoString :=
  if lastIndex ':' host > lastIndex ']' host && host.getLast? = some ':' then host.dropLast
  else host

/-- The function `http.NewRequest`. -/
def NewRequest (method url : GoString) (body : Option GoString) : Result Request :=
  let method := if method = [] then ['G', 'E', 'T'] else method
  if !validMethod method then .error "net/http: invalid method"
  else
    match Parse url with
    | .error e => .error e
    | .panic m => .panic m
    | .ok u =>
      .ok { Method := method, URL := { u with Host := removeEmptyPort u.Host },
            Header := [], Body := body, Host := removeEmptyPort u.Host }

/-- The method `url.Values.Add` on a request's `Form` field: `v[key] = append(v[key],
value)`, which panics when the map is nil. -/
def Values.Add (v : Option Values) (key value : GoString) : Result (Option Values) :=
  match v with
  | none => .panic "assignment to entry in nil map"
  | some m => .ok (some (Header.appendAt m key value))

/-- A loop whose body may end the function: the body runs on each element in turn
until one run does not return normally. -/
def forEach {α β : Type} (xs : List α) (body : β → α → Result β) (init : β) : Result β :=
  xs.foldl (fun acc x =>
    match acc with
    | .ok b => body b x
    | other => other) (.ok init)

/-- The function `createProxyRequest`. -/
def createProxyRequest (dst : GoString) (o : Request) : Result Request :=
  match Parse dst with
  | .error e => .error e
  | .panic m => .panic m
  | .ok endpoint =>
    match NewRequest o.Method (URL.String { endpoint with Path := o.URL.Path }) o.Body with
    | .error e => .error e
    | .panic m => .panic m
    | .ok request =>
      let request := { request with Close := true }
      let request := { request with Header := copyHeaders o.Header request.Header }
      match forEach (o.Form.getD [])
          (fun form e => forEach e.2 (fun form2 v => Values.Add form2 e.1 v) form)
          request.Form with
      | .ok form => .ok { request with Form := form }
      | .error e => .error e
      | .panic m => .panic m

/-- The capability `http.DefaultTransport`: what `RoundTrip` answers to the `n`-th
outbound call of one handler run (call 0 is the primary call, call `i + 1` the call of
the `i`-th mirror goroutine). -/
abbrev Transport := Nat → Request → Result Response

/-- The type `Duplicator`. -/
structure Duplicator where
  listen : GoString
  server : GoString
  duplicates : remotes
  sticky : Bool
  verbose : Bool
  deriving DecidableEq, Repr

/-- The method `(*Duplicator).duplicate`, as call number `n` of the handler run.  The
`debug` output and the timing are diagnostics and are left out. -/
def Duplicator.duplicate (_d : Duplicator) (tr : Transport) (n : Nat)
    (dst : GoString) (req : Request) : Result Response :=
  match createProxyRequest dst req with
  | .error e => .error e
  | .panic m => .panic m
  | .ok nreq => tr n nreq

/-- The interface `http.ResponseWriter`, by what the handler has put into it: the header
map `w.Header()`, the status passed to the first `WriteHeader`, and the bytes passed to
`Write`.  What the server then sends on the connection is not part of the program. -/
structure ResponseWriter where
  header : Header := []
  status : Option Nat := none
  body : GoString := []
  deriving DecidableEq, Repr

/-- The function `checkWriteHeaderCode` of `net/http`: a status below 100 or above 999
makes `WriteHeader` panic. -/
def checkWriteHeaderCode (code : Nat) : Bool :=
  100 ≤ code && code ≤ 999

/-- The method `ResponseWriter.WriteHeader`: a call after the status is fixed changes
nothing; otherwise the code is checked, and the call panics on an invalid code and fixes
the status on a valid one. -/
def ResponseWriter.WriteHeader (w : ResponseWriter) (code : Nat) : Result ResponseWriter :=
  match w.status with
  | some _ => .ok w
  | none =>
    if checkWriteHeaderCode code then .ok { w with status := some code }
    else .panic "invalid WriteHeader code"

/-- The method `ResponseWriter.Write`: a write before any `WriteHeader` implies
`WriteHeader(200)`. -/
def ResponseWriter.Write (w : ResponseWriter) (b : GoString) : ResponseWriter :=
  { w with status := some (w.status.getD 200), body := w.body ++ b }

/-- The function `io.Copy(w, body)`: writes the bytes of the stream to `w`; an empty
stream causes no `Write`. -/
def ioCopy (w : ResponseWriter) (body : GoString) : ResponseWriter :=
  if body = [] then w else w.Write body

/-- The function `http.Error`. -/
def httpError (w : ResponseWriter) (error : GoString) (code : Nat) : Result ResponseWriter :=
  let h := Header.Del w.header "Content-Length".toList
  let h := Header.Set h "Content-Type".toList "text/plain; charset=utf-8".toList
  let h := Header.Set h "X-Content-Type-Options".toList "nosniff".toList
  match ResponseWriter.WriteHeader { w with header := h } code with
  | .ok w1 => .ok (w1.Write (error ++ ['\n']))
  | .error e => .error e
  | .panic m => .panic m

/-- The method `(*Duplicator).sendError`; the `fmt.Println` is a diagnostic and is left out. -/
def Duplicator.sendError (_d : Duplicator) (w : ResponseWriter) (err : Error) :
    Result ResponseWriter :=
  httpError w err.toList 500

/-- What one run of the handler leaves behind. -/
structure Served where
  /-- The client writer after the run. -/
  w : ResponseWriter
  /-- The panic that ended the handler, if any. -/
  panicked : Option String
  /-- The primary call: its target address and its result. -/
  primary : GoString × Result Response
  /-- The mirror goroutines started, in loop order: target address and result of its
  `duplicate` call. -/
  mirrors : List (GoString × Result Response)
  /-- Whether `res.Body.Close()` ran. -/
  bodyClosed : Bool
  deriving DecidableEq, Repr

/-- The goroutines of the `for _, r := range d.duplicates` loop, in loop order, each with
the address it targets and the result of its call.  Each iteration of a `range` loop has
its own variable `r` (Go language specification, as of Go 1.22), so the `i`-th closure
calls `d.duplicate(r, req)` with the `i`-th address. -/
def Duplicator.spawnMirrors (d : Duplicator) (tr : Transport) (req : Request) :
    List (GoString × Result Response) :=
  d.duplicates.enum.map (fun ir => (ir.2, d.duplicate tr (ir.1 + 1) ir.2 req))

/-- The method `(*Duplicator).ServeHTTP`. -/
def Duplicator.ServeHTTP (d : Duplicator) (tr : Transport) (w : ResponseWriter)
    (req : Request) : Served :=
  match d.duplicate tr 0 d.server req with
  | .panic m =>
    { w := w, panicked := some m, primary := (d.server, .panic m), mirrors := [],
      bodyClosed := false }
  | .error e =>
    -- `d.sendError(w, err)`, and no `return`: the handler goes on with `res == nil`
    match d.sendError w e with
    | .ok w1 =>
      let mirrors := d.spawnMirrors tr req
      -- `res.Header` with `res == nil`
      { w := w1, panicked := some "invalid memory address or nil pointer dereference",
        primary := (d.server, .error e), mirrors := mirrors, bodyClosed := false }
    | .error _ =>
      { w := w, panicked := none, primary := (d.server, .error e), mirrors := [],
        bodyClosed := false }
    | .panic m =>
      { w := w, panicked := some m, primary := (d.server, .error e), mirrors := [],
        bodyClosed := false }
  | .ok res =>
    let mirrors := d.spawnMirrors tr req
    let h := res.Header.foldl
      (fun acc e => e.2.foldl (fun acc2 v => Header.Add acc2 e.1 v) acc) w.header
    let w1 := { w with header := h }
    match w1.WriteHeader res.StatusCode with
    | .ok w2 =>
      let w3 := ioCopy w2 res.Body
      { w := w3, panicked := none, primary := (d.server, .ok res), mirrors := mirrors,
        bodyClosed := true }
    | .error _ =>
      { w := w1, panicked := none, primary := (d.server, .ok res), mirrors := mirrors,
        bodyClosed := false }
    | .panic m =>
      -- `w.WriteHeader(res.StatusCode)` with an invalid status
      { w := w1, panicked := some m, primary := (d.server, .ok res), mirrors := mirrors,
        bodyClosed := false }

/-! ## Sample data -/

/-- The inbound request `GET /items?id=3` with the header `X-Trace: abc` and two `Cookie`
values. -/
def sampleRequest : Request :=
  { Method := "GET".toList,
    URL := { Path := "/items".toList, RawQuery := "id=3".toList },
    Header := [("X-Trace".toList, ["abc".toList]),
               ("Cookie".toList, ["a=1".toList, "b=2".toList])],
    Body := some [],
    Host := "example.org".toList }

/-- A duplicator with primary `http://127.0.0.1:80` and two mirrors. -/
def sampleDuplicator : Duplicator :=
  { listen := "0.0.0.0:8080".toList,
    server := "http://127.0.0.1:80".toList,
    duplicates := ["http://m1:80".toList, "http://m2:80".toList],
    sticky := false,
    verbose := true }

/-- The response `200` with one header and the body `hello`. -/
def sampleResponse : Response :=
  { StatusCode := 200,
    Header := [("Content-Type".toList, ["text/plain".toList]),
               ("Set-Cookie".toList, ["a=1".toList, "b=2".toList])],
    Body := "hello".toList }

/-- A transport whose primary call answers `sampleResponse` and whose mirror calls fail. -/
def sampleTransport : Transport :=
  fun n _ => if n = 0 then .ok sampleResponse else .error "connection refused"

/-- A transport on which every call fails. -/
def refusingTransport : Transport :=
  fun _ _ => .error "connection refused"

/-! # Theorems -/

/-! ## Lemmas on `strings.Split` -/

theorem splitComma_ne_nil (s : GoString) : splitComma s ≠ [] := by
  induction s with
  | nil => simp [splitComma]
  | cons c cs ih =>
    unfold splitComma
    split
    · simp
    · split <;> simp

theorem splitComma_length (s : GoString) : (splitComma s).length = 1 + s.count ',' := by
  induction s with
  | nil => simp [splitComma]
  | cons c cs ih =>
    unfold splitComma
    by_cases h : c = ','
    · subst h
      simp [ih]
      omega
    · have hc : (',' : Char) ≠ c := fun e => h e.symm
      simp only [h, if_false]
      cases hs : splitComma cs with
      | nil => exact absurd hs (splitComma_ne_nil cs)
      | cons p ps =>
        rw [hs] at ih
        simp only [List.length_cons] at ih ⊢
        rw [List.count_cons_of_ne hc]
        exact ih

theorem joinWith_splitComma (s : GoString) : joinWith [','] (splitComma s) = s := by
  induction s with
  | nil => simp [splitComma, joinWith]
  | cons c cs ih =>
    unfold splitComma
    by_cases h : c = ','
    · subst h
      simp only [if_true]
      cases hs : splitComma cs with
      | nil => exact absurd hs (splitComma_ne_nil cs)
      | cons p ps =>
        rw [hs] at ih
        simp [joinWith, ih]
    · simp only [h, if_false]
      cases hs : splitComma cs with
      | nil => exact absurd hs (splitComma_ne_nil cs)
      | cons p ps =>
        rw [hs] at ih
        cases ps with
        | nil => simp [joinWith] at ih ⊢; exact ih
        | cons q qs => simp [joinWith] at ih ⊢; exact ih

theorem splitComma_no_comma (s : GoString) : ∀ p ∈ splitComma s, ',' ∉ p := by
  induction s with
  | nil => simp [splitComma]
  | cons c cs ih =>
    unfold splitComma
    by_cases h : c = ','
    · subst h
      simp only [if_true]
      intro p hp
      rcases List.mem_cons.1 hp with rfl | hp
      · simp
      · exact ih p hp
    · simp only [h, if_false]
      cases hs : splitComma cs with
      | nil => exact absurd hs (splitComma_ne_nil cs)
      | cons q qs =>
        rw [hs] at ih
        intro p hp
        rcases List.mem_cons.1 hp with rfl | hp
        · intro hm
          rcases List.mem_cons.1 hm with e | hm
          · exact h e.symm
          · exact ih q (List.mem_cons_self _ _) hm
        · exact ih p (List.mem_cons_of_mem _ hp)

theorem foldl_append_singleton {α : Type} (xs acc : List α) :
    xs.foldl (fun acc r => acc ++ [r]) acc = acc ++ xs := by
  induction xs generalizing acc with
  | nil => simp
  | cons x xs ih => simp [ih]

/-- C10: `rs.Set(value)` returns a nil error and leaves the list equal to the old list
followed by the comma-separated pieces of `value` in their order: the pieces hold no
comma and joined by commas they give `value` back; the list grows by one plus the
number of commas of `value`. -/
theorem remotes_Set_appends (rs : remotes) (value : GoString) :
    (remotes.Set rs value).2 = none ∧
    (remotes.Set rs value).1 = rs ++ splitComma value ∧
    joinWith [','] (splitComma value) = value ∧
    (∀ p ∈ splitComma value, ',' ∉ p) ∧
    (remotes.Set rs value).1.length = rs.length + (1 + value.count ',') := by
  refine ⟨rfl, ?_, joinWith_splitComma value, splitComma_no_comma value, ?_⟩
  · simp [remotes.Set, foldl_append_singleton]
  · simp [remotes.Set, foldl_append_singleton, splitComma_length]

/-! ## Lemmas on header maps -/

theorem Header.get_appendAt (h : Header) (k v k' : GoString) :
    Header.get (Header.appendAt h k v) k' =
      if k = k' then Header.get h k' ++ [v] else Header.get h k' := by
  induction h with
  | nil =>
    by_cases e : k = k' <;> simp [Header.appendAt, Header.get, e]
  | cons a rest ih =>
    obtain ⟨k0, vs⟩ := a
    by_cases e0 : k0 = k
    · subst e0
      by_cases e : k0 = k' <;> simp [Header.appendAt, Header.get, e]
    · by_cases e1 : k0 = k'
      · subst e1
        have : ¬ k = k0 := fun e => e0 e.symm
        simp [Header.appendAt, Header.get, e0, this]
      · simp [Header.appendAt, Header.get, e0, e1, ih]

theorem Header.keys_appendAt (h : Header) (k v k' : GoString) :
    k' ∈ Header.keys (Header.appendAt h k v) ↔ k' = k ∨ k' ∈ Header.keys h := by
  induction h with
  | nil => simp [Header.appendAt, Header.keys]
  | cons a rest ih =>
    obtain ⟨k0, vs⟩ := a
    by_cases e0 : k0 = k
    · subst e0
      simp [Header.appendAt, Header.keys]
    · simp only [Header.appendAt, e0, if_false, Header.keys, List.map_cons, List.mem_cons]
      simp only [Header.keys] at ih
      rw [ih]
      tauto

theorem Header.get_eq_nil_of_not_mem (h : Header) (k : GoString) (hk : k ∉ Header.keys h) :
    Header.get h k = [] := by
  induction h with
  | nil => rfl
  | cons a rest ih =>
    obtain ⟨k0, vs⟩ := a
    simp only [Header.keys, List.map_cons, List.mem_cons, not_or] at hk
    have h0 : ¬ k0 = k := fun e => hk.1 e.symm
    simp only [Header.get, h0, if_false]
    exact ih hk.2

/-- One entry's values, added one by one under the name `k0`. -/
theorem Header.get_foldl_Add (vs : List GoString) (h : Header) (k0 k : GoString) :
    Header.get (vs.foldl (fun acc v => Header.Add acc k0 v) h) k =
      if CanonicalMIMEHeaderKey k0 = k then Header.get h k ++ vs else Header.get h k := by
  induction vs generalizing h with
  | nil => simp
  | cons v vs ih =>
    simp only [List.foldl_cons]
    rw [ih, Header.Add, Header.get_appendAt]
    by_cases e : CanonicalMIMEHeaderKey k0 = k <;> simp [e]

theorem Header.keys_foldl_Add (vs : List GoString) (h : Header) (k0 k : GoString) :
    k ∈ Header.keys (vs.foldl (fun acc v => Header.Add acc k0 v) h) ↔
      (vs ≠ [] ∧ k = CanonicalMIMEHeaderKey k0) ∨ k ∈ Header.keys h := by
  induction vs generalizing h with
  | nil => simp
  | cons v vs ih =>
    simp only [List.foldl_cons]
    rw [ih, Header.Add, Header.keys_appendAt]
    by_cases e : vs = [] <;> simp [e]

/-- The lookup of a name after `copyHeaders`, for a source map with canonical names. -/
theorem get_copyHeaders (src : Header) (hn : (Header.keys src).Nodup)
    (hc : ∀ e ∈ src, CanonicalMIMEHeaderKey e.1 = e.1) (dst : Header) (k : GoString) :
    Header.get (copyHeaders src dst) k = Header.get dst k ++ Header.get src k := by
  induction src generalizing dst with
  | nil => simp [copyHeaders, Header.get]
  | cons a rest ih =>
    obtain ⟨k0, vs⟩ := a
    simp only [Header.keys, List.map_cons, List.nodup_cons] at hn
    have hc0 : CanonicalMIMEHeaderKey k0 = k0 := hc (k0, vs) (List.mem_cons_self _ _)
    have hrest : ∀ e ∈ rest, CanonicalMIMEHeaderKey e.1 = e.1 :=
      fun e he => hc e (List.mem_cons_of_mem _ he)
    have step := ih hn.2 hrest (vs.foldl (fun acc v => Header.Add acc k0 v) dst)
    simp only [copyHeaders, List.foldl_cons] at step ⊢
    rw [step, Header.get_foldl_Add, hc0]
    by_cases e : k0 = k
    · subst e
      have : Header.get rest k0 = [] := Header.get_eq_nil_of_not_mem rest k0 hn.1
      simp [Header.get, this]
    · simp [Header.get, e]

/-- The names present after `copyHeaders`, for a source map with canonical names. -/
theorem keys_copyHeaders (src : Header)
    (hc : ∀ e ∈ src, CanonicalMIMEHeaderKey e.1 = e.1 ∧ e.2 ≠ []) (dst : Header)
    (k : GoString) :
    k ∈ Header.keys (copyHeaders src dst) ↔ k ∈ Header.keys dst ∨ k ∈ Header.keys src := by
  induction src generalizing dst with
  | nil => simp [copyHeaders, Header.keys]
  | cons a rest ih =>
    obtain ⟨k0, vs⟩ := a
    have hc0 := hc (k0, vs) (List.mem_cons_self _ _)
    have hrest : ∀ e ∈ rest, CanonicalMIMEHeaderKey e.1 = e.1 ∧ e.2 ≠ [] :=
      fun e he => hc e (List.mem_cons_of_mem _ he)
    have step := ih hrest (vs.foldl (fun acc v => Header.Add acc k0 v) dst)
    simp only [copyHeaders, List.foldl_cons] at step ⊢
    rw [step, Header.keys_foldl_Add, hc0.1]
    simp only [Header.keys, List.map_cons, List.mem_cons]
    have : vs ≠ [] := hc0.2
    simp only [ne_eq, this, not_false_eq_true, true_and]
    tauto

theorem Header.appendAt_of_not_mem (h : Header) (k v : GoString) (hk : k ∉ Header.keys h) :
    Header.appendAt h k v = h ++ [(k, [v])] := by
  induction h with
  | nil => rfl
  | cons a rest ih =>
    obtain ⟨k0, vs⟩ := a
    simp only [Header.keys, List.map_cons, List.mem_cons, not_or] at hk
    have h0 : ¬ k0 = k := fun e => hk.1 e.symm
    simp only [Header.appendAt, h0, if_false, List.cons_append]
    rw [ih hk.2]

theorem Header.appendAt_last (h : Header) (k v : GoString) (vs : List GoString)
    (hk : k ∉ Header.keys h) :
    Header.appendAt (h ++ [(k, vs)]) k v = h ++ [(k, vs ++ [v])] := by
  induction h with
  | nil => simp [Header.appendAt]
  | cons a rest ih =>
    obtain ⟨k0, vs0⟩ := a
    simp only [Header.keys, List.map_cons, List.mem_cons, not_or] at hk
    have h0 : ¬ k0 = k := fun e => hk.1 e.symm
    have e : (k0, vs0) :: rest ++ [(k, vs)] = (k0, vs0) :: (rest ++ [(k, vs)]) := rfl
    rw [e, Header.appendAt, if_neg h0, ih hk.2]
    rfl

theorem Header.foldl_appendAt_last (vs : List GoString) (h : Header) (k : GoString)
    (ws : List GoString) (hk : k ∉ Header.keys h) :
    vs.foldl (fun acc v => Header.appendAt acc k v) (h ++ [(k, ws)]) = h ++ [(k, ws ++ vs)] := by
  induction vs generalizing ws with
  | nil => simp
  | cons v vs ih =>
    simp only [List.foldl_cons]
    rw [Header.appendAt_last h k v ws hk, ih]
    simp

/-- Copying a well-formed map into a map that shares no name with it appends its entries. -/
theorem copyHeaders_append (src : Header) (hw : Header.WellFormed src) (dst : Header)
    (hd : ∀ k ∈ Header.keys src, k ∉ Header.keys dst) : copyHeaders src dst = dst ++ src := by
  induction src generalizing dst with
  | nil => simp [copyHeaders]
  | cons a rest ih =>
    obtain ⟨k0, vs⟩ := a
    obtain ⟨hn, hc⟩ := hw
    simp only [Header.keys, List.map_cons, List.nodup_cons] at hn
    have hc0 := hc (k0, vs) (List.mem_cons_self _ _)
    have hk0 : k0 ∉ Header.keys dst := hd k0 (by simp [Header.keys])
    have hrest : Header.WellFormed rest :=
      ⟨hn.2, fun e he => hc e (List.mem_cons_of_mem _ he)⟩
    have inner : vs.foldl (fun acc v => Header.Add acc k0 v) dst = dst ++ [(k0, vs)] := by
      cases vs with
      | nil => exact absurd rfl hc0.2
      | cons v vs =>
        simp only [List.foldl_cons, Header.Add]
        have e1 : CanonicalMIMEHeaderKey k0 = k0 := hc0.1
        rw [e1, Header.appendAt_of_not_mem dst k0 v hk0]
        have := Header.foldl_appendAt_last vs dst k0 [v] hk0
        simpa using this
    have step := ih hrest (dst ++ [(k0, vs)]) (by
      intro k hk
      simp only [Header.keys, List.map_append, List.map_cons, List.map_nil, List.mem_append,
        List.mem_singleton, not_or]
      refine ⟨hd k (by simp only [Header.keys, List.map_cons, List.mem_cons]; exact Or.inr hk), ?_⟩
      rintro rfl
      exact hn.1 hk)
    simp only [copyHeaders, List.foldl_cons] at step ⊢
    rw [inner, step]
    simp

/-! ## Lemmas on `createProxyRequest` -/

theorem forEach_stuck {α β : Type} (xs : List α) (body : β → α → Result β) (r : Result β)
    (hr : ∀ b, r ≠ .ok b) :
    xs.foldl (fun acc x =>
      match acc with
      | .ok b => body b x
      | other => other) r = r := by
  induction xs with
  | nil => rfl
  | cons x xs ih =>
    simp only [List.foldl_cons]
    cases r with
    | ok b => exact absurd rfl (hr b)
    | error e => simpa using ih
    | panic m => simpa using ih

/-- The inner loop of the form copy, started on a nil map: it leaves the map nil when there
is no value, and panics otherwise. -/
theorem forEach_values_nil (k : GoString) (vs : List GoString) :
    forEach vs (fun form2 v => Values.Add form2 k v) none =
      if vs = [] then .ok none else .panic "assignment to entry in nil map" := by
  cases vs with
  | nil => rfl
  | cons v vs =>
    simp only [forEach, List.foldl_cons, Values.Add]
    rw [forEach_stuck]
    · simp
    · intro b; simp

/-- The form copy, started on a nil map, either leaves the map nil or panics. -/
theorem forEach_form_nil (form : Values) :
    forEach form (fun f e => forEach e.2 (fun form2 v => Values.Add form2 e.1 v) f) none =
      if form.all (fun e => e.2 = []) then .ok none
      else .panic "assignment to entry in nil map" := by
  induction form with
  | nil => rfl
  | cons e rest ih =>
    simp only [forEach, List.foldl_cons] at ih ⊢
    have h1 := forEach_values_nil e.1 e.2
    simp only [forEach] at h1
    rw [h1]
    by_cases he : e.2 = []
    · simp only [he, if_true, List.all_cons, decide_True, Bool.true_and]
      exact ih
    · simp only [he, if_false, List.all_cons, decide_False, Bool.false_and]
      rw [forEach_stuck]
      · simp
      · intro b; simp

/-- What a successful `createProxyRequest` returns. -/
theorem createProxyRequest_ok {dst : GoString} {o r : Request}
    (h : createProxyRequest dst o = .ok r) :
    ∃ u v, Parse dst = .ok u ∧
      Parse (URL.String { u with Path := o.URL.Path }) = .ok v ∧
      r = { Method := if o.Method = [] then ['G', 'E', 'T'] else o.Method,
            URL := { v with Host := removeEmptyPort v.Host },
            Header := copyHeaders o.Header [],
            Body := o.Body,
            Host := removeEmptyPort v.Host,
            Form := none,
            Close := true } := by
  unfold createProxyRequest at h
  cases hp : Parse dst with
  | error e => rw [hp] at h; simp at h
  | panic m => rw [hp] at h; simp at h
  | ok u =>
    rw [hp] at h
    simp only at h
    unfold NewRequest at h
    cases hm : validMethod (if o.Method = [] then ['G', 'E', 'T'] else o.Method) with
    | false => simp [hm] at h
    | true =>
      simp only [hm, Bool.not_true, Bool.false_eq_true, if_false] at h
      cases hv : Parse (URL.String { u with Path := o.URL.Path }) with
      | error e => rw [hv] at h; simp at h
      | panic m => rw [hv] at h; simp at h
      | ok v =>
        rw [hv] at h
        simp only at h
        rw [forEach_form_nil] at h
        by_cases hf : (o.Form.getD []).all (fun e => e.2 = []) = true
        · simp only [hf, if_true, Result.ok.injEq] at h
          exact ⟨u, v, rfl, hv, h.symm⟩
        · simp [hf] at h

theorem NewRequest_ok {method url : GoString} {body : Option GoString} {q : Request}
    (h : NewRequest method url body = .ok q) : q.Form = none ∧ q.Header = [] := by
  unfold NewRequest at h
  cases hm : validMethod (if method = [] then ['G', 'E', 'T'] else method) with
  | false => simp [hm] at h
  | true =>
    simp only [hm, Bool.not_true, Bool.false_eq_true, if_false] at h
    cases hv : Parse url with
    | error e => rw [hv] at h; simp at h
    | panic m => rw [hv] at h; simp at h
    | ok v =>
      rw [hv] at h
      simp only [Result.ok.injEq] at h
      rw [← h]
      exact ⟨rfl, rfl⟩

/-- The call `http.Error(w, msg, 500)` returns: 500 is a valid status. -/
theorem httpError_500 (w : ResponseWriter) (msg : GoString) :
    ∃ w1, httpError w msg 500 = .ok w1 := by
  unfold httpError ResponseWriter.WriteHeader
  cases w.status with
  | none => exact ⟨_, rfl⟩
  | some s => exact ⟨_, rfl⟩

/-! ## Header preservation -/

/-- C5: for an inbound request `o` whose header map is as `net/http` delivers it (a map with
canonical names, each with at least one value), every successful `createProxyRequest`
returns a request whose header map is `o.Header`: the same names, under each name the
same values in the same order.  Equivalently `copyHeaders` into an empty map gives the
source map, and into any map it appends the source values after the existing ones for
each name. -/
theorem createProxyRequest_preserves_headers (o : Request) (hw : Header.WellFormed o.Header) :
    (∀ dst r, createProxyRequest dst o = .ok r →
      r.Header = o.Header ∧
      (∀ k, Header.get r.Header k = Header.get o.Header k) ∧
      (∀ k, k ∈ Header.keys r.Header ↔ k ∈ Header.keys o.Header)) ∧
    copyHeaders o.Header [] = o.Header ∧
    (∀ dst k, Header.get (copyHeaders o.Header dst) k =
      Header.get dst k ++ Header.get o.Header k) ∧
    (∀ dst k, k ∈ Header.keys (copyHeaders o.Header dst) ↔
      k ∈ Header.keys dst ∨ k ∈ Header.keys o.Header) := by
  have hcopy : copyHeaders o.Header [] = o.Header := by
    have := copyHeaders_append o.Header hw [] (by simp [Header.keys])
    simpa using this
  refine ⟨?_, hcopy, ?_, ?_⟩
  · intro dst r h
    obtain ⟨u, v, _, _, hr⟩ := createProxyRequest_ok h
    have hh : r.Header = o.Header := by rw [hr]; exact hcopy
    exact ⟨hh, fun k => by rw [hh], fun k => by rw [hh]⟩
  · intro dst k
    exact get_copyHeaders o.Header hw.1 (fun e he => (hw.2 e he).1) dst k
  · intro dst k
    exact keys_copyHeaders o.Header hw.2 dst k

/-- C5 at the sample request, whose `Cookie` header has two values. -/
theorem createProxyRequest_preserves_headers_witness :
    Header.WellFormed sampleRequest.Header ∧
    Header.get (copyHeaders sampleRequest.Header []) "Cookie".toList =
      ["a=1".toList, "b=2".toList] ∧
    ∀ dst r, createProxyRequest dst sampleRequest = .ok r →
      r.Header = sampleRequest.Header :=
  ⟨by decide, by decide,
    fun dst r h =>
      ((createProxyRequest_preserves_headers sampleRequest (by decide)).1 dst r h).1⟩

/-! ## The handler -/

/-- C1, as stated, fails: when the primary answers with the status 99, the handler copies
the headers, `w.WriteHeader(99)` panics, and the writer never gets a status or a body. -/
theorem ServeHTTP_invalid_status_counterexample :
    Header.WellFormed sampleResponse.Header ∧
    sampleDuplicator.duplicate (fun _ _ => .ok { sampleResponse with StatusCode := 99 }) 0
      sampleDuplicator.server sampleRequest =
        .ok ⟨99, sampleResponse.Header, sampleResponse.Body⟩ ∧
    (sampleDuplicator.ServeHTTP (fun _ _ => .ok { sampleResponse with StatusCode := 99 })
      {} sampleRequest).panicked = some "invalid WriteHeader code" ∧
    (sampleDuplicator.ServeHTTP (fun _ _ => .ok { sampleResponse with StatusCode := 99 })
      {} sampleRequest).w.status ≠ some 99 ∧
    (sampleDuplicator.ServeHTTP (fun _ _ => .ok { sampleResponse with StatusCode := 99 })
      {} sampleRequest).w.body ≠ sampleResponse.Body := by
  decide!

/-- C1, amended: when the primary call returns a response with a status `S` between 100
and 999, header map `H` (as a transport delivers it) and body `B`, a handler run on a
fresh client writer ends without panic and leaves in the writer the status `S`, the
header map `H` (every name of `H` with the values of `H` in their order, and no other
name) and the body `B`. -/
theorem ServeHTTP_relays_primary (d : Duplicator) (tr : Transport) (req : Request)
    (S : Nat) (H : Header) (B : GoString) (hw : Header.WellFormed H)
    (hS : 100 ≤ S ∧ S ≤ 999)
    (hp : d.duplicate tr 0 d.server req = .ok ⟨S, H, B⟩) :
    (d.ServeHTTP tr {} req).panicked = none ∧
    (d.ServeHTTP tr {} req).w.status = some S ∧
    (d.ServeHTTP tr {} req).w.header = H ∧
    (∀ k, Header.get (d.ServeHTTP tr {} req).w.header k = Header.get H k) ∧
    (∀ k, k ∈ Header.keys (d.ServeHTTP tr {} req).w.header ↔ k ∈ Header.keys H) ∧
    (d.ServeHTTP tr {} req).w.body = B ∧
    (d.ServeHTTP tr {} req).bodyClosed = true := by
  have hcopy : copyHeaders H [] = H := by
    have := copyHeaders_append H hw [] (by simp [Header.keys])
    simpa using this
  have hcopy2 : List.foldl
      (fun acc e => List.foldl (fun acc2 v => Header.Add acc2 e.1 v) acc e.2) [] H = H := hcopy
  have hcheck : checkWriteHeaderCode S = true := by
    simp [checkWriteHeaderCode, hS.1, hS.2]
  have hrun : d.ServeHTTP tr {} req =
      { w := ioCopy { header := H, status := some S, body := [] } B, panicked := none,
        primary := (d.server, .ok ⟨S, H, B⟩), mirrors := d.spawnMirrors tr req,
        bodyClosed := true } := by
    simp only [Duplicator.ServeHTTP, hp, hcopy2, ResponseWriter.WriteHeader, hcheck, if_true]
  have hh : (d.ServeHTTP tr {} req).w.header = H := by
    rw [hrun]
    by_cases hB : B = [] <;> simp [ioCopy, hB, ResponseWriter.Write]
  refine ⟨?_, ?_, hh, fun k => by rw [hh], fun k => by rw [hh], ?_, ?_⟩
  · rw [hrun]
  · rw [hrun]
    by_cases hB : B = [] <;> simp [ioCopy, hB, ResponseWriter.Write]
  · rw [hrun]
    by_cases hB : B = [] <;> simp [ioCopy, hB, ResponseWriter.Write]
  · rw [hrun]

/-- C1 (amended) at the sample duplicator, transport and request. -/
theorem ServeHTTP_relays_primary_witness :
    (sampleDuplicator.ServeHTTP sampleTransport {} sampleRequest).w =
      { header := sampleResponse.Header, status := some 200, body := "hello".toList } := by
  have h := ServeHTTP_relays_primary sampleDuplicator sampleTransport sampleRequest
    200 sampleResponse.Header "hello".toList (by decide) (by decide) (by decide!)
  obtain ⟨_, h2, h3, _, _, h6, _⟩ := h
  cases hw : (sampleDuplicator.ServeHTTP sampleTransport {} sampleRequest).w with
  | mk hd st bd =>
    rw [hw] at h2 h3 h6
    simp only at h2 h3 h6
    rw [h2, h3, h6]

/-- C3: two handler runs on the same writer and request with the same primary outcome
leave the same writer state and end the same way, whatever the two mirror lists and the
answers to the mirror calls are; in particular they leave what the run without mirrors
leaves. -/
theorem ServeHTTP_mirror_isolation (d1 d2 : Duplicator) (tr1 tr2 : Transport)
    (w : ResponseWriter) (req : Request)
    (hp : d1.duplicate tr1 0 d1.server req = d2.duplicate tr2 0 d2.server req) :
    (d1.ServeHTTP tr1 w req).w = (d2.ServeHTTP tr2 w req).w ∧
    (d1.ServeHTTP tr1 w req).panicked = (d2.ServeHTTP tr2 w req).panicked ∧
    (d1.ServeHTTP tr1 w req).bodyClosed = (d2.ServeHTTP tr2 w req).bodyClosed ∧
    (d1.ServeHTTP tr1 w req).w =
      (({ d1 with duplicates := [] } : Duplicator).ServeHTTP tr1 w req).w := by
  have h0 : ({ d1 with duplicates := [] } : Duplicator).duplicate tr1 0 d1.server req =
      d1.duplicate tr1 0 d1.server req := rfl
  have key : ∀ (da db : Duplicator) (ta tb : Transport),
      da.duplicate ta 0 da.server req = db.duplicate tb 0 db.server req →
      (da.ServeHTTP ta w req).w = (db.ServeHTTP tb w req).w ∧
      (da.ServeHTTP ta w req).panicked = (db.ServeHTTP tb w req).panicked ∧
      (da.ServeHTTP ta w req).bodyClosed = (db.ServeHTTP tb w req).bodyClosed := by
    intro da db ta tb h
    simp only [Duplicator.ServeHTTP, h]
    cases db.duplicate tb 0 db.server req with
    | panic m => exact ⟨rfl, rfl, rfl⟩
    | error e =>
      simp only [Duplicator.sendError]
      cases httpError w e.toList 500 <;> exact ⟨rfl, rfl, rfl⟩
    | ok res =>
      simp only
      cases ResponseWriter.WriteHeader _ res.StatusCode <;> exact ⟨rfl, rfl, rfl⟩
  obtain ⟨k1, k2, k3⟩ := key d1 d2 tr1 tr2 hp
  exact ⟨k1, k2, k3, (key d1 { d1 with duplicates := [] } tr1 tr1 h0.symm).1⟩

/-- C3 at the sample data: two failing mirrors or no mirror at all, the client gets the
same response. -/
theorem ServeHTTP_mirror_isolation_witness :
    (sampleDuplicator.ServeHTTP sampleTransport {} sampleRequest).w =
      (({ sampleDuplicator with duplicates := [] } : Duplicator).ServeHTTP
        (fun _ _ => .ok sampleResponse) {} sampleRequest).w :=
  (ServeHTTP_mirror_isolation sampleDuplicator { sampleDuplicator with duplicates := [] }
    sampleTransport (fun _ _ => .ok sampleResponse) {} sampleRequest (by decide!)).1

/-- C4: in a handler run whose primary call returns (a response or an error), there is one
primary call, to `d.server`, and one mirror goroutine per entry of `d.duplicates`; the
`i`-th goroutine makes the `duplicate` call to the `i`-th mirror address. -/
theorem ServeHTTP_fanout (d : Duplicator) (tr : Transport) (w : ResponseWriter)
    (req : Request) (hret : ∀ m, d.duplicate tr 0 d.server req ≠ .panic m) :
    (d.ServeHTTP tr w req).primary = (d.server, d.duplicate tr 0 d.server req) ∧
    (d.ServeHTTP tr w req).mirrors.length = d.duplicates.length ∧
    (d.ServeHTTP tr w req).mirrors.map Prod.fst = d.duplicates ∧
    (∀ i, (d.ServeHTTP tr w req).mirrors[i]? =
      (d.duplicates[i]?).map (fun r => (r, d.duplicate tr (i + 1) r req))) := by
  have hm : (d.ServeHTTP tr w req).mirrors = d.spawnMirrors tr req := by
    simp only [Duplicator.ServeHTTP]
    cases h : d.duplicate tr 0 d.server req with
    | ok res =>
      simp only
      cases ResponseWriter.WriteHeader _ res.StatusCode <;> rfl
    | error e =>
      obtain ⟨w1, hw1⟩ := httpError_500 w e.toList
      simp only [Duplicator.sendError, hw1]
    | panic m => exact absurd h (hret m)
  refine ⟨?_, ?_, ?_, ?_⟩
  · simp only [Duplicator.ServeHTTP]
    cases h : d.duplicate tr 0 d.server req with
    | ok res =>
      simp only
      cases ResponseWriter.WriteHeader _ res.StatusCode <;> rfl
    | error e =>
      obtain ⟨w1, hw1⟩ := httpError_500 w e.toList
      simp only [Duplicator.sendError, hw1]
    | panic m => rfl
  · rw [hm]; simp [Duplicator.spawnMirrors]
  · rw [hm]
    simp only [Duplicator.spawnMirrors, List.map_map]
    have : (Prod.fst ∘ fun (ir : Nat × GoString) =>
        (ir.2, d.duplicate tr (ir.1 + 1) ir.2 req)) = Prod.snd := rfl
    rw [this, List.enum_map_snd]
  · intro i
    rw [hm]
    simp only [Duplicator.spawnMirrors, List.getElem?_map, List.getElem?_enum]
    cases d.duplicates[i]? <;> rfl

/-- C4 at the sample data with a failing primary call: both mirrors are still called. -/
theorem ServeHTTP_fanout_witness :
    (sampleDuplicator.ServeHTTP refusingTransport {} sampleRequest).mirrors.map Prod.fst =
      ["http://m1:80".toList, "http://m2:80".toList] :=
  (ServeHTTP_fanout sampleDuplicator refusingTransport {} sampleRequest
    (fun m h => Result.noConfusion
      ((show sampleDuplicator.duplicate refusingTransport 0 sampleDuplicator.server
          sampleRequest = .error "connection refused" from by decide!).symm.trans h))).2.2.1

/-! ## The outbound request -/

/-- C9: the destination `localhost:8080`, a host:port address, parses (as the scheme
`localhost` with the opaque part `8080`), request construction succeeds, and the request
that `createProxyRequest` returns has an empty URL path and an empty URL host: the
inbound path `/items` is lost.  The method, the body and `Close` are as claimed. -/
theorem createProxyRequest_host_port_loses_path :
    ∃ u r, Parse "localhost:8080".toList = .ok u ∧
      createProxyRequest "localhost:8080".toList sampleRequest = .ok r ∧
      sampleRequest.URL.Path = "/items".toList ∧
      r.URL.Path = [] ∧ r.URL.Host = [] ∧ URL.String r.URL = "localhost:8080".toList ∧
      r.Method = sampleRequest.Method ∧ r.Body = sampleRequest.Body ∧ r.Close = true :=
  ⟨{ Scheme := "localhost".toList, Opaque := "8080".toList },
   { Method := "GET".toList,
     URL := { Scheme := "localhost".toList, Opaque := "8080".toList },
     Header := sampleRequest.Header, Body := some [], Close := true },
   by decide!, by decide!, by decide, by decide, by decide, by decide!, by decide, by decide,
   by decide⟩

/-! ## Places where the code departs from its description -/

/-- C2: whenever the primary call returns an error, `sendError` writes status 500 and the
error text, and the handler, which does not return there, starts the mirror goroutines,
goes on to `res.Header` with `res == nil` and panics: it does not complete. -/
theorem ServeHTTP_primary_error_panics (d : Duplicator) (tr : Transport)
    (w : ResponseWriter) (req : Request) (e : Error)
    (h : d.duplicate tr 0 d.server req = .error e) :
    (d.ServeHTTP tr w req).panicked =
      some "invalid memory address or nil pointer dereference" ∧
    httpError w e.toList 500 = .ok (d.ServeHTTP tr w req).w ∧
    (d.ServeHTTP tr w req).mirrors = d.spawnMirrors tr req ∧
    (d.ServeHTTP tr w req).bodyClosed = false := by
  obtain ⟨w1, hw1⟩ := httpError_500 w e.toList
  simp only [Duplicator.ServeHTTP, h, Duplicator.sendError, hw1]
  exact ⟨trivial, trivial, trivial, trivial⟩

/-- C2 at the sample data, with a transport that refuses every connection. -/
theorem ServeHTTP_primary_error_panics_witness :
    (sampleDuplicator.ServeHTTP refusingTransport {} sampleRequest).panicked =
      some "invalid memory address or nil pointer dereference" ∧
    (sampleDuplicator.ServeHTTP refusingTransport {} sampleRequest).w.status = some 500 ∧
    (sampleDuplicator.ServeHTTP refusingTransport {} sampleRequest).w.body =
      "connection refused\n".toList :=
  ⟨(ServeHTTP_primary_error_panics sampleDuplicator refusingTransport {} sampleRequest
      "connection refused" (by decide!)).1, by decide!, by decide!⟩

/-- C6: for the inbound request `GET /items?id=3` and the destination
`http://127.0.0.1:80`, the outbound URL is `http://127.0.0.1:80/items`: the path is
copied, the query string `id=3` is not. -/
theorem createProxyRequest_drops_query :
    sampleRequest.URL.RawQuery = "id=3".toList ∧
    ∃ r, createProxyRequest "http://127.0.0.1:80".toList sampleRequest = .ok r ∧
      r.URL.Path = "/items".toList ∧ r.URL.RawQuery = [] ∧
      URL.String r.URL = "http://127.0.0.1:80/items".toList :=
  ⟨by decide,
   { Method := "GET".toList,
     URL := { Scheme := "http".toList, Host := "127.0.0.1:80".toList,
              Path := "/items".toList },
     Header := sampleRequest.Header, Body := some [], Host := "127.0.0.1:80".toList,
     Close := true },
   by decide!, by decide, by decide, by decide!⟩

/-- C7: for the default primary address `127.0.0.1:80`, `url.Parse` fails, so
`createProxyRequest` returns an error for every inbound request. -/
theorem createProxyRequest_default_server_fails (o : Request) :
    createProxyRequest "127.0.0.1:80".toList o =
      .error "first path segment in URL cannot contain colon" := by
  have h : Parse "127.0.0.1:80".toList =
      .error "first path segment in URL cannot contain colon" := by decide!
  unfold createProxyRequest
  rw [h]

/-- C8: for an inbound request whose parsed form holds at least one value,
`createProxyRequest` never returns a request: when `url.Parse` and `http.NewRequest`
succeed it panics, because the `Form` map of the new request is nil. -/
theorem createProxyRequest_form_panics (dst : GoString) (o : Request)
    (hf : ∃ e ∈ o.Form.getD [], e.2 ≠ []) :
    (∀ r, createProxyRequest dst o ≠ .ok r) ∧
    (∀ u q, Parse dst = .ok u →
      NewRequest o.Method (URL.String { u with Path := o.URL.Path }) o.Body = .ok q →
      createProxyRequest dst o = .panic "assignment to entry in nil map") := by
  have hall : (o.Form.getD []).all (fun e => decide (e.2 = [])) = false := by
    obtain ⟨e, he, hne⟩ := hf
    rw [Bool.eq_false_iff]
    intro hc
    rw [List.all_eq_true] at hc
    have := hc e he
    simp only [decide_eq_true_eq] at this
    exact hne this
  constructor
  · intro r hr
    unfold createProxyRequest at hr
    cases hp : Parse dst with
    | error e => rw [hp] at hr; simp at hr
    | panic m => rw [hp] at hr; simp at hr
    | ok u =>
      rw [hp] at hr
      simp only at hr
      cases hn : NewRequest o.Method (URL.String { u with Path := o.URL.Path }) o.Body with
      | error e => rw [hn] at hr; simp at hr
      | panic m => rw [hn] at hr; simp at hr
      | ok q =>
        rw [hn] at hr
        simp only [(NewRequest_ok hn).1, forEach_form_nil, hall] at hr
        simp at hr
  · intro u q hu hn
    unfold createProxyRequest
    rw [hu]
    simp only [hn, (NewRequest_ok hn).1, forEach_form_nil, hall]
    simp

/-- C8 at the sample request with the parsed form `a=1`. -/
theorem createProxyRequest_form_panics_witness :
    createProxyRequest "http://127.0.0.1:80".toList
        { sampleRequest with Form := some [("a".toList, ["1".toList])] } =
      .panic "assignment to entry in nil map" :=
  (createProxyRequest_form_panics "http://127.0.0.1:80".toList
    { sampleRequest with Form := some [("a".toList, ["1".toList])] }
    ⟨("a".toList, ["1".toList]), by decide, by decide⟩).2
    { Scheme := "http".toList, Host := "127.0.0.1:80".toList }
    { Method := "GET".toList,
      URL := { Scheme := "http".toList, Host := "127.0.0.1:80".toList,
               Path := "/items".toList },
      Body := some [], Host := "127.0.0.1:80".toList }
    (by decide!) (by decide!)

end Httpdupgo
